import Mathlib

/-! Formal model of the APEC scraping pipeline, a shallow embedding of
`my_libs/apec/apec_data_extraction.py` and `my_libs/apec/apec_xlsx_writer.py`.

Selenium WebElements are modelled as first-order data.  Every Selenium
lookup that can raise `NoSuchElementException` is an `Option`; transforms
that can raise `ValueError` return `Except Unit PyVal`.  Python floats are
modelled as rationals (the parser only ever builds them from decimal
literals). -/

namespace Apec

/-- ASCII whitespace, the characters Python `str.strip` removes on the texts
this site produces. -/
def isSpaceChar (c : Char) : Bool := c = ' ' || c = '\t' || c = '\n' || c = '\r'

/-- Drop leading characters satisfying `p`. -/
def dropLeading (p : Char → Bool) : List Char → List Char
  | [] => []
  | c :: cs => if p c then dropLeading p cs else c :: cs

/-- Python `str.strip` on the character list. -/
def trimList (cs : List Char) : List Char :=
  dropLeading isSpaceChar ((dropLeading isSpaceChar cs.reverse).reverse)

/-- Python `str.strip`. -/
def pyStrip (s : String) : String := ⟨trimList s.data⟩

/-- Python `s.replace(sep, "", 1)` for a one-character pattern: drop the first
occurrence of `sep`. -/
def removeFirstChar (sep : Char) : List Char → List Char
  | [] => []
  | c :: cs => if c = sep then cs else c :: removeFirstChar sep cs

/-- Python `s.replace(sep, "")` for a one-character pattern: drop every
occurrence of `sep`. -/
def removeAllChar (sep : Char) (cs : List Char) : List Char :=
  cs.filter fun c => !(c = sep)

/-- Python `str.isdigit`, restricted to ASCII digits (the shapes the site
produces); `false` on the empty string, as in Python. -/
def pyIsdigit (cs : List Char) : Bool := !cs.isEmpty && cs.all Char.isDigit

/-- Does `s` start with `pat`? -/
def startsWithList : List Char → List Char → Bool
  | [], _ => true
  | _ :: _, [] => false
  | p :: ps, c :: cs => p = c && startsWithList ps cs

/-- Python `pat in s` substring test. -/
def containsList (pat : List Char) : List Char → Bool
  | [] => pat.isEmpty
  | c :: cs => startsWithList pat (c :: cs) || containsList pat cs

/-- Python `pat in s` on strings. -/
def containsSub (s pat : String) : Bool := containsList pat.data s.data

/-- Split on a one-character separator (Python `str.split(sep)` semantics,
which is what `urllib.parse.parse_qs` uses on `&` and `=`). -/
def splitOnCharGo (sep : Char) : List Char → List Char → List (List Char)
  | [], acc => [acc.reverse]
  | c :: cs, acc =>
    if c = sep then acc.reverse :: splitOnCharGo sep cs []
    else splitOnCharGo sep cs (c :: acc)

/-- Split a character list on a one-character separator. -/
def splitOnChar (sep : Char) (cs : List Char) : List (List Char) :=
  splitOnCharGo sep cs []

/-- Rejoin split parts with the separator. -/
def joinWithChar (sep : Char) : List (List Char) → List Char
  | [] => []
  | [x] => x
  | x :: y :: rest => x ++ sep :: joinWithChar sep (y :: rest)

/-- Numeric value of an ASCII digit list (most significant first). -/
def digitsValGo (acc : Nat) : List Char → Nat
  | [] => acc
  | c :: cs => digitsValGo (acc * 10 + (c.toNat - Char.toNat '0')) cs

/-- A Python value produced by a field extraction: a string, a float (as a
rational), an int, or Python `None`. -/
inductive PyVal
  | vStr (s : String)
  | vFloat (q : ℚ)
  | vInt (n : Int)
  | vNone
deriving DecidableEq

/-- Python `float` on the strings that reach it in this program: ASCII digits
with at most one dot.  `none` stands for `ValueError`. -/
def parseFloatQ (s : String) : Option ℚ :=
  match splitOnChar '.' s.data with
  | [i] => if pyIsdigit i then some ((digitsValGo 0 i : ℚ)) else none
  | [i, f] =>
    if i.isEmpty && f.isEmpty then none
    else if i.all Char.isDigit && f.all Char.isDigit then
      some ((digitsValGo 0 i : ℚ) + (digitsValGo 0 f : ℚ) / ((10 : ℚ) ^ f.length))
    else none
  | _ => none

/-- Result of one Python transform call: `ValueError` or a value. -/
abbrev TransformOut := Except Unit PyVal

/-- The default transform of `safe_extract_text`, Python `str`. -/
def str_transform (t : String) : TransformOut := .ok (.vStr t)

/-- `weight_transform`: `float(text) if text and text.replace(".", "", 1).isdigit() else None`. -/
def weight_transform (t : String) : TransformOut :=
  if !t.data.isEmpty && pyIsdigit (removeFirstChar '.' t.data) then
    match parseFloatQ t with
    | some q => .ok (.vFloat q)
    | none => .error ()
  else .ok .vNone

/-- `availability_transform`: `int(text) if text.isdigit() else None`. -/
def availability_transform (t : String) : TransformOut :=
  if pyIsdigit t.data then .ok (.vInt (digitsValGo 0 t.data))
  else .ok .vNone

/-- `lead_time_transform`: `int(text) if text.isdigit() else None`. -/
def lead_time_transform (t : String) : TransformOut :=
  if pyIsdigit t.data then .ok (.vInt (digitsValGo 0 t.data))
  else .ok .vNone

/-- `price_transform`: `float(text.replace(",", "").replace("$", "")) if text
and text.replace(".", "", 1).isdigit() else None`.  Note the guard is applied
to the raw text, the stripping only happens inside the `float` call. -/
def price_transform (t : String) : TransformOut :=
  if !t.data.isEmpty && pyIsdigit (removeFirstChar '.' t.data) then
    match parseFloatQ ⟨removeAllChar '$' (removeAllChar ',' t.data)⟩ with
    | some q => .ok (.vFloat q)
    | none => .error ()
  else .ok .vNone

/-- An `<i>` sub-element of a cell, with its `class` attribute. -/
structure ICon where
  classAttr : Option String
deriving DecidableEq

/-- An `<a>` sub-element of the name cell: its text and `href` attribute. -/
structure Link where
  text : String
  href : Option String
deriving DecidableEq

/-- The `div` Selenium returns for one `div.table__row-element:nth-of-type(k) > div`
selector: its text, its `<i>` sub-elements and its `<a>` sub-elements. -/
structure Cell where
  text : String
  iElems : List ICon
  links : List Link
deriving DecidableEq

/-- One `div.table__row` element.  Each of the eight per-field cell lookups can
raise `NoSuchElementException`, hence `Option Cell`, in `nth-of-type` order
1 = manufacturer, 2 = article, 3 = name, 4 = weight, 5 = availability,
6 = lead time, 7 = information, 8 = price. -/
structure RowElem where
  manufacturerCell : Option Cell
  articleCell : Option Cell
  nameCell : Option Cell
  weightCell : Option Cell
  availabilityCell : Option Cell
  leadTimeCell : Option Cell
  informationCell : Option Cell
  priceCell : Option Cell
deriving DecidableEq

/-- The checkmark sentinel literal returned by `safe_extract_text` when the
cell carries an `icon-nal` icon (the source file stores the UTF-8 checkmark
mojibake-decoded, faithfully reproduced here). -/
def check_sentinel : String := "âœ”"

/-- `safe_extract_text`'s icon check: the first `<i>` sub-element, if any, has
a `class` attribute containing `icon-nal`. -/
def nalIcon (el : Cell) : Bool :=
  match el.iElems.head? with
  | some i =>
    match i.classAttr with
    | some c => containsSub c "icon-nal"
    | none => false
  | none => false

/-- `safe_extract_text`: locate the cell (a failed lookup, or a `ValueError`
from the transform, is caught and yields Python `None` = `vNone`); trim its
text; return the checkmark sentinel on an `icon-nal` icon; otherwise apply the
transform and fall back to the raw trimmed text when the transform returns
`None` or the empty string. -/
def safe_extract_text (cell : Option Cell) (tf : String → TransformOut) : PyVal :=
  match cell with
  | none => .vNone
  | some el =>
    let text := pyStrip el.text
    if nalIcon el then .vStr check_sentinel
    else
      match tf text with
      | .error _ => .vNone
      | .ok v => if v = .vNone || v = .vStr "" then .vStr text else v

/-- The exception `parse_row_data` can let escape: the unguarded
`row.find_element` lookup of the name cell. -/
inductive ParseErr
  | noSuchElement
deriving DecidableEq

/-- The parsed record, keyed by the `ApecData` schema.  `nameUrl = none` means
the `NAME_URL` key is absent from the dict; `some h` means it was set to the
link's `href` attribute (itself possibly Python `None`). -/
structure Record where
  keyword : String
  category : String
  manufacturer : PyVal
  article : PyVal
  name : PyVal
  nameUrl : Option (Option String)
  weight : PyVal
  availability : PyVal
  leadTime : PyVal
  information : PyVal
  price : PyVal
deriving DecidableEq

/-- `parse_row_data`: build the record dict.  All fields except name go
through `safe_extract_text`; the name cell is looked up directly, so a missing
name cell raises past the function (the partially filled dict is discarded).
With a hyperlink, name is the link's (untrimmed) text and `NAME_URL` its
`href`; otherwise name is the cell's trimmed text and `NAME_URL` stays absent. -/
def parse_row_data (row : RowElem) (category keyword : String) : Except ParseErr Record :=
  match row.nameCell with
  | none => .error .noSuchElement
  | some nameEl =>
    let nm := match nameEl.links.head? with
      | some l => (PyVal.vStr l.text, some l.href)
      | none => (PyVal.vStr (pyStrip nameEl.text), (none : Option (Option String)))
    .ok {
      keyword := keyword
      category := category
      manufacturer := safe_extract_text row.manufacturerCell str_transform
      article := safe_extract_text row.articleCell str_transform
      name := nm.1
      nameUrl := nm.2
      weight := safe_extract_text row.weightCell weight_transform
      availability := safe_extract_text row.availabilityCell availability_transform
      leadTime := safe_extract_text row.leadTimeCell lead_time_transform
      information := safe_extract_text row.informationCell str_transform
      price := safe_extract_text row.priceCell price_transform
    }

/-- The three category names eligible for extraction. -/
def eligibleCategories : List String :=
  ["Own stock warehouses", "Requested article",
   "Superseded part for the requested article"]

/-- One `div.table__rows-group` element: its `div.table__rows-title` lookup
(`none` = the lookup raised, caught at the group level) and its row elements. -/
structure Group where
  title : Option String
  rows : List RowElem
deriving DecidableEq

/-- Whether a group carries a readable title naming an eligible category. -/
def groupEligible (g : Group) : Bool :=
  match g.title with
  | some t => decide (t ∈ eligibleCategories)
  | none => false

/-- The records a group's row loop appends: per-row parse failures are caught
and skipped. -/
def groupRecords (keyword t : String) (rows : List RowElem) : List Record :=
  rows.filterMap fun r => (parse_row_data r t keyword).toOption

/-- The `for group in groups` loop of `scrape_manufacturer_data`: a failed
title lookup is caught and the loop continues; an eligible title appends the
group's records; an ineligible title breaks the loop and clears
`should_continue` (second component `false`). -/
def processGroups (keyword : String) : List Group → List Record × Bool
  | [] => ([], true)
  | g :: gs =>
    match g.title with
    | none => processGroups keyword gs
    | some t =>
      if t ∈ eligibleCategories then
        let out := processGroups keyword gs
        (groupRecords keyword t g.rows ++ out.1, out.2)
      else ([], false)

/-- The records contributed by the groups of one page prefix whose titles are
all readable and eligible (what the spec calls "records parsed from eligible
groups earlier on that page"). -/
def eligibleRecords (keyword : String) : List Group → List Record
  | [] => []
  | g :: gs =>
    (match g.title with
     | some t => if t ∈ eligibleCategories then groupRecords keyword t g.rows else []
     | none => []) ++ eligibleRecords keyword gs

/-- The `li.page-next` lookup outcome: the element is absent
(`NoSuchElementException`), or present with its `class` attribute and whether
the scroll + click + wait sequence succeeds (`clickOk = false` = it raised). -/
inductive NextInfo
  | absent
  | present (classAttr : Option String) (clickOk : Bool)
deriving DecidableEq

/-- One page as the scraping loop observes it: the query string of
`driver.current_url`, whether `Utils.take_screenshot` reports success, whether
an unexpected exception fires while reading the page (escaping to the outer
handler), the category groups in document order, and the next-page control. -/
structure Page where
  query : String
  screenshotOk : Bool
  extractFault : Bool
  groups : List Group
  next : NextInfo
deriving DecidableEq

/-- Modelled from the spec: `urllib.parse.parse_qs(...).get(key, ["unknown"])[0]`
("a manufacturer identifier parsed out of the current URL's query
parameters").  `parse_qs` splits on `&`, keeps only pairs with a nonempty
value, and `[0]` takes the first value for the key. -/
def parse_qs_first (query key : String) : Option String :=
  ((splitOnChar '&' query.data).filterMap fun p =>
    match splitOnChar '=' p with
    | [] => none
    | k :: vs =>
      let v := joinWithChar '=' vs
      if k == key.data && !vs.isEmpty && !v.isEmpty then some (⟨v⟩ : String)
      else none).head?

/-- `query_params.get("mfr", ["unknown"])[0]`. -/
def mfrFromQuery (q : String) : String := (parse_qs_first q "mfr").getD "unknown"

/-- The screenshot file name `f"{keyword} {mfr_value} page {page_num}.png"`. -/
def shotName (keyword mfr : String) (pageNum : Nat) : String :=
  s!"{keyword} {mfr} page {pageNum}.png"

/-- One screenshot actually captured: its path and the page number used. -/
structure Capture where
  path : String
  num : Nat
deriving DecidableEq

/-- Observable outcome of the `while should_continue` loop: records appended
to the workbook in order, screenshots captured, screenshot attempts made (one
per page reached), and whether an unexpected exception escaped the loop. -/
structure LoopOut where
  records : List Record
  captures : List Capture
  attempts : Nat
  fault : Bool
deriving DecidableEq

/-- `class_attr and "disabled" in class_attr`. -/
def nextDisabled (classAttr : Option String) : Bool :=
  match classAttr with
  | some c => containsSub c "disabled"
  | none => false

/-- The continuation decision after a page: continue only if the halt flag was
not set, the next-page control exists, is not disabled, and clicking it (and
waiting for new groups) succeeds; every failure path clears the flag. -/
def continuesToNext (cont : Bool) (ni : NextInfo) : Bool :=
  cont && match ni with
    | .absent => false
    | .present ca clickOk => !nextDisabled ca && clickOk

/-- The `while should_continue` loop of `scrape_manufacturer_data`, one
iteration per page: on an unexpected fault the iteration raises (partial work
of earlier pages is kept by the caller); otherwise take the screenshot under
`ss_lock`, incrementing `page_num` only when `Utils.take_screenshot` returns
success, process the groups, and decide continuation. -/
def scrapeLoop (keyword : String) : List Page → Nat → LoopOut
  | [], _ => ⟨[], [], 0, false⟩
  | pg :: rest, n =>
    if pg.extractFault then ⟨[], [], 0, true⟩
    else
      let caps := if pg.screenshotOk
        then [⟨shotName keyword (mfrFromQuery pg.query) n, n⟩] else []
      let n2 := if pg.screenshotOk then n + 1 else n
      let pr := processGroups keyword pg.groups
      if continuesToNext pr.2 pg.next then
        let out := scrapeLoop keyword rest n2
        ⟨pr.1 ++ out.records, caps ++ out.captures, 1 + out.attempts, out.fault⟩
      else ⟨pr.1, caps, 1, false⟩

/-- Environment of one `scrape_manufacturer_data` call: whether the initial
navigation + wait succeeds (`false` = page-load timeout, caught by the outer
handler), and the successive pages the browser shows. -/
structure ScrapeEnv where
  loadOk : Bool
  pages : List Page
deriving DecidableEq

/-- Session-pool events emitted by one worker. -/
inductive PoolEvent
  | acquire
  | release
deriving DecidableEq

/-- Observable outcome of `scrape_manufacturer_data`: everything appended and
captured, whether the outer `except` handler caught an exception, and the pool
events in order (`acquire` before the `try`, `release` in the `finally`). -/
structure ScrapeOut where
  records : List Record
  captures : List Capture
  caught : Bool
  poolEvents : List PoolEvent
deriving DecidableEq

/-- `scrape_manufacturer_data`: acquire a driver, run the scraping loop inside
`try/except/finally`; a load timeout or an unexpected fault is caught and
logged, and the `finally` block releases the driver on every path. -/
def scrape_manufacturer_data (keyword : String) (env : ScrapeEnv) : ScrapeOut :=
  let body := if env.loadOk then scrapeLoop keyword env.pages 1 else ⟨[], [], 0, true⟩
  { records := body.records
    captures := body.captures
    caught := body.fault
    poolEvents := [.acquire, .release] }

/-- The column indices of the ten `fields_to_write` of
`MyApecExcel.write_data_row`, in write order (`Utils.get_enum_col` of KEYWORD,
CATEGORY, MANUFACTURER, ARTICLE, NAME, WEIGHT, AVAILABILITY, LEAD_TIME,
INFORMATION, PRICE per the `ApecData` enum). -/
def apecColumns : List Nat := [0, 1, 2, 3, 4, 5, 6, 7, 8, 9]

/-- One shared-state step of a `write_data_row` call. -/
inductive WriterStep
  | writeCell (c : Nat)
  | bumpRow
deriving DecidableEq

/-- One `write_data_row` call as its sequence of shared-state steps: ten cell
writes, each reading the current `self.row_count` and writing that cell (the
step is atomic, modelling `Utils.write_data` holding the excel lock for the
single cell write), followed by the unguarded `self.row_count += 1`. -/
def write_data_row_steps : List WriterStep :=
  apecColumns.map WriterStep.writeCell ++ [WriterStep.bumpRow]

/-- The shared worksheet state: the `row_count` counter and the log of cell
writes as (writer thread, row, column) triples. -/
structure SinkState where
  rowCount : Nat
  cells : List (Nat × Nat × Nat)
deriving DecidableEq

/-- Execute one writer step on behalf of thread `t`. -/
def stepWriter (t : Nat) (a : WriterStep) (s : SinkState) : SinkState :=
  match a with
  | .writeCell c => { s with cells := s.cells ++ [(t, s.rowCount, c)] }
  | .bumpRow => { s with rowCount := s.rowCount + 1 }

/-- Interleaved execution of two concurrent `write_data_row` calls: the
schedule picks which thread performs its next atomic step (`false` = thread 0,
`true` = thread 1); a scheduled thread with no steps left idles. -/
def runConc : List Bool → List WriterStep → List WriterStep → SinkState → SinkState
  | [], _, _, s => s
  | false :: sch, [], p1, s => runConc sch [] p1 s
  | false :: sch, a :: p0, p1, s => runConc sch p0 p1 (stepWriter 0 a s)
  | true :: sch, p0, [], s => runConc sch p0 [] s
  | true :: sch, p0, a :: p1, s => runConc sch p0 p1 (stepWriter 1 a s)

/-- A schedule where both threads perform all ten cell writes before either
executes its `row_count` increment. -/
def raceSchedule : List Bool :=
  List.replicate 10 false ++ List.replicate 11 true ++ [false]

/-- The header row written by `MyApecExcel.add_headers` (the `ApecData` enum
headers in column order). -/
def headerRow : List PyVal :=
  [.vStr "Keyword", .vStr "Category", .vStr "Manufacturer", .vStr "Article",
   .vStr "Name", .vStr "Net Weight, kg", .vStr "Availability",
   .vStr "Lead Time, days", .vStr "Information", .vStr "Price ($)"]

/-- The worksheet row a record occupies, in column order. -/
def renderRecord (r : Record) : List PyVal :=
  [.vStr r.keyword, .vStr r.category, r.manufacturer, r.article, r.name,
   r.weight, r.availability, r.leadTime, r.information, r.price]

/-- Outcome of one `workbook.close()` attempt inside `save_workbook`. -/
inductive CloseAttempt
  | success
  | eaccesDenied
  | osOther
  | exnOther
deriving DecidableEq

/-- Events of the orchestration around finalisation. -/
inductive RunEvent
  | taskDone (i : Nat)
  | saveCall
  | promptShown
  | closed
deriving DecidableEq

/-- The `while True` retry loop of `save_workbook`, observed as events: every
failed close attempt (permission denied or otherwise) shows one blocking
`input()` prompt and retries; a successful close ends the loop.  `fuel` only
truncates the observation window; exhausting it means the loop is still
retrying — no branch propagates an error. -/
def saveEvents (outcomes : Nat → CloseAttempt) : Nat → Nat → List RunEvent
  | 0, _ => []
  | fuel + 1, k =>
    match outcomes k with
    | .success => [.closed]
    | .eaccesDenied => .promptShown :: saveEvents outcomes fuel (k + 1)
    | .osOther => .promptShown :: saveEvents outcomes fuel (k + 1)
    | .exnOther => .promptShown :: saveEvents outcomes fuel (k + 1)

/-- Outcome of one row-link lookup during manufacturer discovery: its `href`
attribute (`none` = attribute absent, making `urljoin` raise), or an
unexpected fault (e.g. a stale element) raising out of the row loop. -/
inductive RowResult
  | link (href : Option String)
  | fault
deriving DecidableEq

/-- Environment of one `get_manufacturer_urls` call: whether navigation + the
10s wait succeed, the text of the error label element if it exists, the
browser's current URL afterwards, and the listing row lookups. -/
structure DiscoveryEnv where
  navOk : Bool
  errorLabel : Option String
  currentUrl : String
  rows : List RowResult
deriving DecidableEq

/-- The base the code resolves relative links against. -/
def apecBase : String := "https://apecauto.com/"

/-- Modelled from the spec: `urllib.parse.urljoin` restricted to the absolute
and site-relative links the listing produces ("the set of absolute URLs
(relative links resolved against the site's base origin)"). -/
def urljoin (base rel : String) : String :=
  if startsWithList "http://".data rel.data || startsWithList "https://".data rel.data then rel
  else if startsWithList "/".data rel.data then ⟨base.data ++ rel.data.drop 1⟩
  else ⟨base.data ++ rel.data⟩

/-- Modelled from the spec: `Utils.build_apec_manufacturer_search` — the
"keyword-derived search URL" discovery navigates to. -/
def build_apec_manufacturer_search (keyword : String) : String :=
  "https://apecauto.com/en/catalogs/manufacturers?text=" ++ keyword

/-- The `for row in rows` loop of discovery: collect resolved links until a
lookup faults (second component `true` = an exception escaped the loop and is
caught by the function-level handler, keeping what was collected). -/
def collectRows : List RowResult → List String × Bool
  | [] => ([], false)
  | .fault :: _ => ([], true)
  | .link none :: _ => ([], true)
  | .link (some h) :: rest =>
    let out := collectRows rest
    (urljoin apecBase h :: out.1, out.2)

/-- `get_manufacturer_urls`: on a wait timeout the handler catches and the
collected (empty) list is returned; an error label reading "None" means no
results; a redirect (URL changed and containing "searchspareparts") yields
that one URL; otherwise the listing rows are collected, a mid-loop fault
keeping the URLs gathered so far. -/
def get_manufacturer_urls (env : DiscoveryEnv) (keyword : String) : List String :=
  if env.navOk then
    if env.errorLabel = some "None" then []
    else if decide (build_apec_manufacturer_search keyword ≠ env.currentUrl)
            && containsSub env.currentUrl "searchspareparts" then [env.currentUrl]
    else (collectRows env.rows).1
  else []

/-- Python dict assignment on an insertion-ordered association list: replace
in place if the key exists, else append. -/
def updateAssoc : List (String × List String) → String → List String → List (String × List String)
  | [], k, v => [(k, v)]
  | p :: ps, k, v => if p.1 = k then (k, v) :: ps else p :: updateAssoc ps k v

/-- Dict lookup on the association list. -/
def lookupA : List (String × List String) → String → Option (List String)
  | [], _ => none
  | p :: ps, k => if p.1 = k then some p.2 else lookupA ps k

/-- The keyword loop of `fetch_all_manufacturer_urls`: strip each keyword,
skip empty ones with a warning, otherwise run discovery (the environment is
indexed by the keyword's position, as the shared driver's state evolves) and
assign the result into the dict. -/
def fetchAllGo (denv : Nat → DiscoveryEnv) :
    Nat → List (String × List String) → List String → List (String × List String)
  | _, m, [] => m
  | i, m, kw :: rest =>
    let k := pyStrip kw
    if k = "" then fetchAllGo denv (i + 1) m rest
    else fetchAllGo denv (i + 1) (updateAssoc m k (get_manufacturer_urls (denv i) k)) rest

/-- `fetch_all_manufacturer_urls`. -/
def fetch_all_manufacturer_urls (denv : Nat → DiscoveryEnv) (keywords : List String) :
    List (String × List String) :=
  fetchAllGo denv 0 [] keywords

/-- Index (from `i`) of the last keyword whose stripped form equals `k`. -/
def lastMatchIdxGo (k : String) : Nat → List String → Option Nat
  | _, [] => none
  | i, kw :: rest =>
    match lastMatchIdxGo k (i + 1) rest with
    | some j => some j
    | none => if pyStrip kw = k then some i else none

/-- Absolute index of the last keyword whose stripped form equals `k`. -/
def lastMatchIdx (keywords : List String) (k : String) : Option Nat :=
  lastMatchIdxGo k 0 keywords

/-- The run's observable outcome: the artifact's rows (header first, then one
row per appended record) and the orchestration events. -/
structure RunModel where
  rows : List (List PyVal)
  events : List RunEvent
deriving DecidableEq

/-- The fan-out of `process_and_scrape_manufacturer_data`: one task per
(keyword, url) pair, in dict iteration order. -/
def runTasksOf (dict : List (String × List String)) : List (String × String) :=
  dict.flatMap fun p => p.2.map fun u => (p.1, u)

/-- `process_and_scrape_manufacturer_data`: create the workbook (header row
first), run every task (each task's appends in order; per-task exceptions are
caught in the `as_completed` loop), and only then call `save_workbook`. -/
def process_and_scrape_manufacturer_data (dict : List (String × List String))
    (senv : Nat → ScrapeEnv) (outcomes : Nat → CloseAttempt) (fuel : Nat) : RunModel :=
  let tasks := runTasksOf dict
  let recs := tasks.enum.flatMap fun p => (scrape_manufacturer_data p.2.1 (senv p.1)).records
  { rows := headerRow :: recs.map renderRecord
    events := (List.range tasks.length).map RunEvent.taskDone
      ++ RunEvent.saveCall :: saveEvents outcomes fuel 0 }

/-- `process_keywords`: an empty keyword list is a logged no-op; an empty
discovery dict also produces no artifact; otherwise the run proceeds. -/
def process_keywords (denv : Nat → DiscoveryEnv) (senv : Nat → ScrapeEnv)
    (outcomes : Nat → CloseAttempt) (fuel : Nat) (keywords : List String) :
    Option RunModel :=
  if keywords.isEmpty then none
  else
    let dict := fetch_all_manufacturer_urls denv keywords
    if dict.isEmpty then none
    else some (process_and_scrape_manufacturer_data dict senv outcomes fuel)

/-- Consecutive naturals starting at `s`. -/
def natSeq : Nat → Nat → List Nat
  | _, 0 => []
  | s, l + 1 => s :: natSeq (s + 1) l

/-- A cell with plain text and no sub-elements. -/
def mkCell (t : String) : Cell := ⟨t, [], []⟩

/-- A row whose price cell reads "$1,234.50" (name cell present). -/
def rowPriceDollar : RowElem :=
  ⟨none, none, some (mkCell "nm"), none, none, none, none, some (mkCell "$1,234.50")⟩

/-- A row whose price cell reads "N/A" (name cell present). -/
def rowPriceNA : RowElem :=
  ⟨none, none, some (mkCell "nm"), none, none, none, none, some (mkCell "N/A")⟩

/-- A row where every field cell exists except the name cell. -/
def rowNoName : RowElem :=
  ⟨some (mkCell "m"), some (mkCell "a"), none, some (mkCell "1.5"),
   some (mkCell "3"), some (mkCell "2"), some (mkCell "i"), some (mkCell "9.99")⟩

/-- A row carrying only a name cell. -/
def rowOnlyName : RowElem :=
  ⟨none, none, some (mkCell "part"), none, none, none, none, none⟩

/-- An eligible group holding one parseable row. -/
def gOwn : Group := ⟨some "Own stock warehouses", [rowOnlyName]⟩

/-- A group with a category name outside the allow-list. -/
def gBad : Group := ⟨some "Related Products", []⟩

/-- A page whose second group is ineligible. -/
def pgHalt : Page := ⟨"mfr=ACME", true, false, [gOwn, gBad], .present (some "") true⟩

/-- A further page that would be scraped if pagination continued. -/
def pgExtra : Page := ⟨"", true, false, [gOwn], .absent⟩

/-- A page whose screenshot capture fails, with a clickable next control. -/
def pgShotFail : Page := ⟨"", false, false, [], .present none true⟩

/-- A page whose screenshot capture succeeds, with no next control. -/
def pgShotOk : Page := ⟨"mfr=m1", true, false, [], .absent⟩

/-- A discovery environment whose listing row loop faults after yielding one
link. -/
def envListingFault : DiscoveryEnv :=
  ⟨true, none, build_apec_manufacturer_search "kw",
   [.link (some "/m1"), .fault, .link (some "/m2")]⟩

/-- Discovery environments yielding a distinct link per call index. -/
def denvSeq : Nat → DiscoveryEnv :=
  fun i => ⟨true, none, "", [.link (some ("/u" ++ toString i))]⟩

/-- A trivial discovery environment (navigation times out). -/
def denvTriv : Nat → DiscoveryEnv := fun _ => ⟨false, none, "", []⟩

/-- A trivial scraping environment (page load times out). -/
def senvTriv : Nat → ScrapeEnv := fun _ => ⟨false, []⟩

/-- Close outcomes that always succeed. -/
def outcomesTriv : Nat → CloseAttempt := fun _ => .success

/-- Close outcomes failing once with permission denied, then succeeding. -/
def outcomesW : Nat → CloseAttempt :=
  fun k => if k < 1 then .eaccesDenied else .success

/-- A one-task dict for the finalisation witness. -/
def dictW : List (String × List String) := [("a", ["u"])]

/-! ### Helper lemmas -/

/-- Collecting listing rows up to the first fault keeps the resolved links
gathered before the fault and flags the caught exception. -/
theorem collectRows_until_fault (good : List String) (tl : List RowResult) :
    collectRows (good.map (fun h => RowResult.link (some h)) ++ RowResult.fault :: tl)
      = (good.map (urljoin apecBase), true) := by
  induction good with
  | nil => simp [collectRows]
  | cons h hs ih => simp [collectRows, ih]

/-- Looking up the just-assigned key returns the just-assigned value. -/
theorem lookupA_updateAssoc_self (m : List (String × List String)) (k : String)
    (v : List String) : lookupA (updateAssoc m k v) k = some v := by
  induction m with
  | nil => simp [updateAssoc, lookupA]
  | cons p ps ih =>
    by_cases h : p.1 = k
    · simp [updateAssoc, h, lookupA]
    · simp [updateAssoc, h, lookupA, ih]

/-- Assigning one key leaves lookups of other keys unchanged. -/
theorem lookupA_updateAssoc_ne (m : List (String × List String)) (k : String)
    (v : List String) (k2 : String) (h : k2 ≠ k) :
    lookupA (updateAssoc m k v) k2 = lookupA m k2 := by
  have h2 : ¬ k = k2 := fun hh => h hh.symm
  induction m with
  | nil => simp [updateAssoc, lookupA, h2]
  | cons p ps ih =>
    by_cases hp : p.1 = k
    · subst hp
      simp [updateAssoc, lookupA, h2]
    · simp [updateAssoc, hp, lookupA, ih]

/-- Dict assignment keeps the key list, appending the key only when new. -/
theorem keys_updateAssoc (m : List (String × List String)) (k : String) (v : List String) :
    (updateAssoc m k v).map Prod.fst
      = if k ∈ m.map Prod.fst then m.map Prod.fst else m.map Prod.fst ++ [k] := by
  induction m with
  | nil => simp [updateAssoc]
  | cons p ps ih =>
    by_cases hp : p.1 = k
    · simp [updateAssoc, hp]
    · have hkp : ¬ k = p.1 := fun hh => hp hh.symm
      by_cases hk : k ∈ ps.map Prod.fst
      · simp [updateAssoc, hp, ih, hk, hkp]
      · simp [updateAssoc, hp, ih, hk, hkp]

/-- Dict assignment preserves existing keys. -/
theorem mem_keys_updateAssoc (m : List (String × List String)) (k : String)
    (v : List String) (a : String) (ha : a ∈ m.map Prod.fst) :
    a ∈ (updateAssoc m k v).map Prod.fst := by
  rw [keys_updateAssoc]
  by_cases hk : k ∈ m.map Prod.fst <;> simp [hk, ha]

/-- Dict assignment makes the assigned key present. -/
theorem self_mem_keys_updateAssoc (m : List (String × List String)) (k : String)
    (v : List String) : k ∈ (updateAssoc m k v).map Prod.fst := by
  rw [keys_updateAssoc]
  by_cases hk : k ∈ m.map Prod.fst <;> simp [hk]

/-- Dict assignment preserves key distinctness. -/
theorem nodup_keys_updateAssoc (m : List (String × List String)) (k : String)
    (v : List String) (h : (m.map Prod.fst).Nodup) :
    ((updateAssoc m k v).map Prod.fst).Nodup := by
  rw [keys_updateAssoc]
  by_cases hk : k ∈ m.map Prod.fst
  · simpa [hk] using h
  · simp [hk, List.nodup_append, h]

/-- The keyword loop never removes keys from the accumulating dict. -/
theorem keys_fetchAllGo_mono (denv : Nat → DiscoveryEnv) (ks : List String) :
    ∀ (i : Nat) (m : List (String × List String)) (a : String),
      a ∈ m.map Prod.fst → a ∈ (fetchAllGo denv i m ks).map Prod.fst := by
  induction ks with
  | nil => intro i m a ha; simpa [fetchAllGo] using ha
  | cons kw rest ih =>
    intro i m a ha
    by_cases ht : pyStrip kw = ""
    · simpa [fetchAllGo, ht] using ih (i + 1) m a ha
    · simpa [fetchAllGo, ht] using ih (i + 1) _ a (mem_keys_updateAssoc _ _ _ _ ha)

/-- Every keyword with a nonempty stripped form ends up as a dict key,
whatever the per-call discovery environments do. -/
theorem trim_mem_keys_fetchAllGo (denv : Nat → DiscoveryEnv) (ks : List String) :
    ∀ (kw : String), kw ∈ ks → pyStrip kw ≠ "" →
      ∀ (i : Nat) (m : List (String × List String)),
        pyStrip kw ∈ (fetchAllGo denv i m ks).map Prod.fst := by
  induction ks with
  | nil => intro kw h; simp at h
  | cons kw0 rest ih =>
    intro kw hmem hne i m
    rcases List.mem_cons.mp hmem with he | hm
    · subst he
      have : fetchAllGo denv i m (kw :: rest)
          = fetchAllGo denv (i + 1)
              (updateAssoc m (pyStrip kw) (get_manufacturer_urls (denv i) (pyStrip kw))) rest := by
        simp [fetchAllGo, hne]
      rw [this]
      exact keys_fetchAllGo_mono denv rest (i + 1) _ _ (self_mem_keys_updateAssoc _ _ _)
    · by_cases ht : pyStrip kw0 = ""
      · simpa [fetchAllGo, ht] using ih kw hm hne (i + 1) m
      · simpa [fetchAllGo, ht] using ih kw hm hne (i + 1) _

/-- A present key has a value. -/
theorem lookupA_some_of_mem_keys (m : List (String × List String)) (a : String)
    (ha : a ∈ m.map Prod.fst) : ∃ v, lookupA m a = some v := by
  induction m with
  | nil => simp at ha
  | cons p ps ih =>
    by_cases hp : p.1 = a
    · exact ⟨p.2, by simp [lookupA, hp]⟩
    · have ha2 : a ∈ ps.map Prod.fst := by
        rcases (by simpa using ha : a = p.1 ∨ a ∈ ps.map Prod.fst) with h | h
        · exact absurd h.symm hp
        · exact h
      rcases ih ha2 with ⟨v, hv⟩
      exact ⟨v, by simp [lookupA, hp, hv]⟩

/-- The dict built by the keyword loop answers lookups with the discovery
result of the last occurrence of the key, keeping earlier entries otherwise. -/
theorem lookupA_fetchAllGo (denv : Nat → DiscoveryEnv) (k : String) (hk : k ≠ "")
    (ks : List String) :
    ∀ (i : Nat) (m : List (String × List String)),
      lookupA (fetchAllGo denv i m ks) k
        = match lastMatchIdxGo k i ks with
          | some j => some (get_manufacturer_urls (denv j) k)
          | none => lookupA m k := by
  induction ks with
  | nil => intro i m; simp [fetchAllGo, lastMatchIdxGo]
  | cons kw rest ih =>
    intro i m
    by_cases ht : pyStrip kw = ""
    · have hne : pyStrip kw ≠ k := by rw [ht]; exact fun hh => hk hh.symm
      rw [show fetchAllGo denv i m (kw :: rest) = fetchAllGo denv (i + 1) m rest from by
        simp [fetchAllGo, ht]]
      rw [ih (i + 1) m]
      cases hl : lastMatchIdxGo k (i + 1) rest with
      | some j => simp [lastMatchIdxGo, hl]
      | none => simp [lastMatchIdxGo, hl, hne]
    · rw [show fetchAllGo denv i m (kw :: rest)
          = fetchAllGo denv (i + 1)
              (updateAssoc m (pyStrip kw) (get_manufacturer_urls (denv i) (pyStrip kw))) rest from by
        simp [fetchAllGo, ht]]
      rw [ih (i + 1) _]
      cases hl : lastMatchIdxGo k (i + 1) rest with
      | some j => simp [lastMatchIdxGo, hl]
      | none =>
        by_cases hkk : pyStrip kw = k
        · subst hkk
          simp [lastMatchIdxGo, hl, lookupA_updateAssoc_self]
        · have hk2 : k ≠ pyStrip kw := fun hh => hkk hh.symm
          simp [lastMatchIdxGo, hl, hkk, lookupA_updateAssoc_ne _ _ _ _ hk2]

/-- The keyword loop keeps dict keys distinct. -/
theorem nodup_keys_fetchAllGo (denv : Nat → DiscoveryEnv) (ks : List String) :
    ∀ (i : Nat) (m : List (String × List String)),
      (m.map Prod.fst).Nodup → ((fetchAllGo denv i m ks).map Prod.fst).Nodup := by
  induction ks with
  | nil => intro i m h; simpa [fetchAllGo] using h
  | cons kw rest ih =>
    intro i m h
    by_cases ht : pyStrip kw = ""
    · simpa [fetchAllGo, ht] using ih (i + 1) m h
    · simpa [fetchAllGo, ht] using ih (i + 1) _ (nodup_keys_updateAssoc _ _ _ h)

/-- The keyword loop never creates an empty-string key. -/
theorem lookupA_fetchAllGo_empty (denv : Nat → DiscoveryEnv) (ks : List String) :
    ∀ (i : Nat) (m : List (String × List String)),
      lookupA m "" = none → lookupA (fetchAllGo denv i m ks) "" = none := by
  induction ks with
  | nil => intro i m h; simpa [fetchAllGo] using h
  | cons kw rest ih =>
    intro i m h
    by_cases ht : pyStrip kw = ""
    · simpa [fetchAllGo, ht] using ih (i + 1) m h
    · have h2 : lookupA (updateAssoc m (pyStrip kw)
          (get_manufacturer_urls (denv i) (pyStrip kw))) "" = none := by
        rw [lookupA_updateAssoc_ne _ _ _ _ (Ne.symm ht)]
        exact h
      simpa [fetchAllGo, ht] using ih (i + 1) _ h2

/-- Group processing over an all-eligible prefix followed by an ineligible
group: the prefix's records are kept and the halt flag is cleared. -/
theorem processGroups_halt (keyword : String) (pre : List Group) (bad : Group)
    (post : List Group)
    (hpre : ∀ g ∈ pre, groupEligible g = true)
    (hb1 : bad.title.isSome = true)
    (hb2 : groupEligible bad = false) :
    processGroups keyword (pre ++ bad :: post) = (eligibleRecords keyword pre, false) := by
  induction pre with
  | nil =>
    cases ht : bad.title with
    | none => rw [ht] at hb1; simp at hb1
    | some t =>
      have hne : ¬ t ∈ eligibleCategories := by
        unfold groupEligible at hb2
        rw [ht] at hb2
        simpa using hb2
      simp [processGroups, ht, hne, eligibleRecords]
  | cons g gs ih =>
    have hg := hpre g (List.mem_cons_self g gs)
    cases ht : g.title with
    | none =>
      unfold groupEligible at hg
      rw [ht] at hg
      simp at hg
    | some t =>
      have hmem : t ∈ eligibleCategories := by
        unfold groupEligible at hg
        rw [ht] at hg
        simpa using hg
      have ih2 := ih (fun g2 hg2 => hpre g2 (List.mem_cons_of_mem g hg2))
      simp [processGroups, ht, hmem, eligibleRecords, ih2]

/-- Prepending the start element to a consecutive run extends the run. -/
theorem natSeq_cons (s l : Nat) : s :: natSeq (s + 1) l = natSeq s (l + 1) := rfl

/-- The save retry loop: with the first successful close at attempt `n` (and
enough observation fuel), it shows exactly one prompt per failed attempt and
then closes, propagating nothing. -/
theorem saveEvents_of_first_success (outcomes : Nat → CloseAttempt) :
    ∀ (n k fuel : Nat), outcomes (k + n) = CloseAttempt.success →
      (∀ m, m < n → outcomes (k + m) ≠ CloseAttempt.success) → n < fuel →
      saveEvents outcomes fuel k
        = List.replicate n RunEvent.promptShown ++ [RunEvent.closed] := by
  intro n
  induction n with
  | zero =>
    intro k fuel h1 _ hf
    cases fuel with
    | zero => omega
    | succ f =>
      have h0 : outcomes k = CloseAttempt.success := by simpa using h1
      simp [saveEvents, h0]
  | succ n ih =>
    intro k fuel h1 h2 hf
    cases fuel with
    | zero => omega
    | succ f =>
      have h0 : outcomes k ≠ CloseAttempt.success := by
        simpa using h2 0 (Nat.succ_pos n)
      have hrec := ih (k + 1) f
        (by rw [show k + 1 + n = k + (n + 1) from by omega]; exact h1)
        (fun m hm => by
          rw [show k + 1 + m = k + (m + 1) from by omega]
          exact h2 (m + 1) (by omega))
        (by omega)
      cases ho : outcomes k with
      | success => exact absurd ho h0
      | eaccesDenied => simp [saveEvents, ho, hrec, List.replicate_succ]
      | osOther => simp [saveEvents, ho, hrec, List.replicate_succ]
      | exnOther => simp [saveEvents, ho, hrec, List.replicate_succ]

/-! ### Claim theorems -/

/-- Claim C1 (code bug): on a price cell reading "$1,234.50" the parsed price
is the raw string, not the float 1234.50 — `price_transform`'s isdigit guard
is evaluated on the raw text before the "$" and "," are stripped (last
conjunct: the guard would pass on the stripped text), so the numeric branch
never fires on currency-formatted text and `safe_extract_text` falls back to
the raw text; on "N/A" the raw-string fallback holds; neither case raises. -/
theorem price_guard_blocks_currency_strings :
    (parse_row_data rowPriceDollar "c" "k").toOption.map Record.price
      = some (PyVal.vStr "$1,234.50")
    ∧ (parse_row_data rowPriceNA "c" "k").toOption.map Record.price
      = some (PyVal.vStr "N/A")
    ∧ price_transform "$1,234.50" = Except.ok PyVal.vNone
    ∧ pyIsdigit (removeFirstChar '.'
        (removeAllChar '$' (removeAllChar ',' "$1,234.50".data))) = true :=
  ⟨by decide, by decide, rfl, by decide⟩

/-- Claim C2 (counterexample): a row whose name sub-element is missing makes
`parse_row_data` raise — the name lookup is the one field lookup not guarded
by `safe_extract_text`, so no record is produced even though every other
field cell is present. -/
theorem parse_row_raises_on_missing_name :
    (parse_row_data rowNoName "c" "k").toOption = none := by decide

/-- Claim C2 (amended): whenever the name sub-element lookup succeeds,
`parse_row_data` returns a record without raising, and any other field whose
sub-element lookup fails is recorded as absent (`None`). -/
theorem parse_row_no_raise_of_name (row : RowElem) (category keyword : String)
    (el : Cell) (h : row.nameCell = some el) :
    ∃ r, parse_row_data row category keyword = .ok r
      ∧ (row.manufacturerCell = none → r.manufacturer = .vNone)
      ∧ (row.articleCell = none → r.article = .vNone)
      ∧ (row.weightCell = none → r.weight = .vNone)
      ∧ (row.availabilityCell = none → r.availability = .vNone)
      ∧ (row.leadTimeCell = none → r.leadTime = .vNone)
      ∧ (row.informationCell = none → r.information = .vNone)
      ∧ (row.priceCell = none → r.price = .vNone) := by
  unfold parse_row_data
  rw [h]
  refine ⟨_, rfl, ?_, ?_, ?_, ?_, ?_, ?_, ?_⟩ <;> intro hc <;> simp [safe_extract_text, hc]

/-- Witness for C2's amended theorem at a concrete row carrying only a name
cell. -/
theorem parse_row_no_raise_of_name_witness :
    ∃ r, parse_row_data rowOnlyName "c" "k" = .ok r
      ∧ (rowOnlyName.manufacturerCell = none → r.manufacturer = .vNone)
      ∧ (rowOnlyName.articleCell = none → r.article = .vNone)
      ∧ (rowOnlyName.weightCell = none → r.weight = .vNone)
      ∧ (rowOnlyName.availabilityCell = none → r.availability = .vNone)
      ∧ (rowOnlyName.leadTimeCell = none → r.leadTime = .vNone)
      ∧ (rowOnlyName.informationCell = none → r.information = .vNone)
      ∧ (rowOnlyName.priceCell = none → r.price = .vNone) :=
  parse_row_no_raise_of_name rowOnlyName "c" "k" (mkCell "part") rfl

/-- Claim C3: when a page's groups are an all-eligible prefix followed by a
group with a foreign category name, the loop keeps exactly the records of the
eligible prefix, stops processing further groups, and fetches no further
pages (the result does not depend on what later pages would contain). -/
theorem scrape_stops_on_foreign_category (keyword : String) (pg : Page)
    (pre : List Group) (bad : Group) (post : List Group) (n : Nat)
    (hg : pg.groups = pre ++ bad :: post)
    (hf : pg.extractFault = false)
    (hpre : ∀ g ∈ pre, groupEligible g = true)
    (hb1 : bad.title.isSome = true)
    (hb2 : groupEligible bad = false) :
    (∀ rest, (scrapeLoop keyword (pg :: rest) n).records = eligibleRecords keyword pre)
    ∧ (∀ rest rest2, scrapeLoop keyword (pg :: rest) n = scrapeLoop keyword (pg :: rest2) n) := by
  have hp := processGroups_halt keyword pre bad post hpre hb1 hb2
  constructor
  · intro rest
    simp [scrapeLoop, hf, hg, hp, continuesToNext]
  · intro rest rest2
    simp [scrapeLoop, hf, hg, hp, continuesToNext]

/-- Witness for C3 at a concrete page whose second group is "Related
Products": the record of the eligible first group is kept and the extra page
is never consulted. -/
theorem scrape_stops_on_foreign_category_witness :
    (scrapeLoop "kw" [pgHalt, pgExtra] 1).records = eligibleRecords "kw" [gOwn] :=
  (scrape_stops_on_foreign_category "kw" pgHalt [gOwn] gBad [] 1 rfl rfl
    (by decide) (by decide) (by decide)).1 [pgExtra]

/-- Claim C4 (code bug): under the interleaving in which both concurrent
`write_data_row` calls perform their ten per-cell writes before either runs
its unguarded `row_count += 1`, both appends write row 1 — including the very
same cell (1, 0) — and the counter then jumps to 3, leaving row 2 blank.  The
per-cell excel lock does not serialize the append as a whole. -/
theorem concurrent_appends_share_a_row :
    (runConc raceSchedule write_data_row_steps write_data_row_steps ⟨1, []⟩).rowCount = 3
    ∧ (0, 1, 0) ∈ (runConc raceSchedule write_data_row_steps write_data_row_steps ⟨1, []⟩).cells
    ∧ (1, 1, 0) ∈ (runConc raceSchedule write_data_row_steps write_data_row_steps ⟨1, []⟩).cells := by
  decide

/-- Claim C5: whatever the environment does — normal completion, page-load
timeout, or an unexpected fault while extracting — one `scrape_manufacturer_data`
call emits exactly an acquire followed by a release: the `finally` block
returns the leased session to the pool on every exit path. -/
theorem session_released_on_every_path (keyword : String) (env : ScrapeEnv) :
    (scrape_manufacturer_data keyword env).poolEvents
        = [PoolEvent.acquire, PoolEvent.release]
    ∧ (scrape_manufacturer_data keyword env).poolEvents.getLast?
        = some PoolEvent.release :=
  ⟨rfl, rfl⟩

/-- Claim C6: with the first successful close at attempt `n`, the run's event
trace is exactly all task completions, then the single `save_workbook` call,
then one blocking prompt per failed close attempt, then the close — finalize
runs once, only after every task, retries instead of failing, and the
artifact rows are the same as in a run whose close succeeds immediately
(appended rows are not lost to close failures). -/
theorem finalize_once_after_all_tasks (dict : List (String × List String))
    (senv : Nat → ScrapeEnv) (outcomes : Nat → CloseAttempt) (fuel n : Nat)
    (hn : outcomes n = CloseAttempt.success)
    (hmin : ∀ m, m < n → outcomes m ≠ CloseAttempt.success)
    (hfuel : n < fuel) :
    (process_and_scrape_manufacturer_data dict senv outcomes fuel).events
      = (List.range (runTasksOf dict).length).map RunEvent.taskDone
        ++ RunEvent.saveCall :: (List.replicate n RunEvent.promptShown ++ [RunEvent.closed])
    ∧ (process_and_scrape_manufacturer_data dict senv outcomes fuel).rows
      = (process_and_scrape_manufacturer_data dict senv (fun _ => CloseAttempt.success) 1).rows := by
  constructor
  · have hs := saveEvents_of_first_success outcomes n 0 fuel (by simpa using hn)
      (fun m hm => by simpa using hmin m hm) hfuel
    show (List.range (runTasksOf dict).length).map RunEvent.taskDone
        ++ RunEvent.saveCall :: saveEvents outcomes fuel 0 = _
    rw [hs]
  · rfl

/-- Witness for C6: one task, one permission-denied close attempt, then
success. -/
theorem finalize_once_after_all_tasks_witness :
    (process_and_scrape_manufacturer_data dictW senvTriv outcomesW 2).events
      = (List.range (runTasksOf dictW).length).map RunEvent.taskDone
        ++ RunEvent.saveCall :: (List.replicate 1 RunEvent.promptShown ++ [RunEvent.closed])
    ∧ (process_and_scrape_manufacturer_data dictW senvTriv outcomesW 2).rows
      = (process_and_scrape_manufacturer_data dictW senvTriv (fun _ => CloseAttempt.success) 1).rows :=
  finalize_once_after_all_tasks dictW senvTriv outcomesW 2 1 (by decide) (by decide) (by decide)

/-- Claim C7 (counterexample): a discovery run whose listing row loop faults
after resolving one link still contributes that URL — a keyword hit by an
unexpected failure mid-extraction contributes the URLs collected so far, not
zero. -/
theorem discovery_fault_still_contributes_urls :
    (collectRows envListingFault.rows).2 = true
    ∧ get_manufacturer_urls envListingFault "kw" = ["https://apecauto.com/m1"] :=
  ⟨by decide, by decide⟩

/-- Claim C7 (amended): an unexpected failure during discovery is caught at
the keyword scope: the keyword contributes exactly the URLs collected before
the failure (zero when the failure precedes any collection), and every other
keyword with a nonempty stripped form still receives its own dict entry,
whatever any discovery environment does. -/
theorem discovery_failure_partial_and_isolated (denv : Nat → DiscoveryEnv)
    (keywords : List String) :
    (∀ kw, kw ∈ keywords → pyStrip kw ≠ "" →
      ∃ urls, lookupA (fetch_all_manufacturer_urls denv keywords) (pyStrip kw) = some urls)
    ∧ (∀ (env : DiscoveryEnv) (keyword : String) (good : List String) (tl : List RowResult),
        env.navOk = true → env.errorLabel = none →
        env.currentUrl = build_apec_manufacturer_search keyword →
        env.rows = good.map (fun h => RowResult.link (some h)) ++ RowResult.fault :: tl →
        get_manufacturer_urls env keyword = good.map (urljoin apecBase)) := by
  constructor
  · intro kw hmem hne
    exact lookupA_some_of_mem_keys _ _ (trim_mem_keys_fetchAllGo denv keywords kw hmem hne 0 [])
  · intro env keyword good tl h1 h2 h3 h4
    simp [get_manufacturer_urls, h1, h2, h3, h4, collectRows_until_fault]

/-- Witness for C7's amended theorem: a concrete keyword list and a concrete
faulting listing environment. -/
theorem discovery_failure_partial_and_isolated_witness :
    (∃ urls, lookupA (fetch_all_manufacturer_urls denvSeq ["kw"]) (pyStrip "kw") = some urls)
    ∧ get_manufacturer_urls envListingFault "kw" = ["/m1"].map (urljoin apecBase) :=
  ⟨(discovery_failure_partial_and_isolated denvSeq ["kw"]).1 "kw" (by decide) (by decide),
   (discovery_failure_partial_and_isolated denvSeq ["kw"]).2 envListingFault "kw" ["/m1"]
     [RowResult.link (some "/m2")] rfl rfl rfl rfl⟩

/-- Claim C8 (counterexample): a nonempty keyword list whose only keyword is
blank after stripping produces no artifact at all — the discovery dict is
empty and `process_and_scrape_manufacturer_data` is never invoked. -/
theorem blank_keywords_produce_no_artifact :
    process_keywords denvTriv senvTriv outcomesTriv 1 ["   "] = none := by decide

/-- Claim C8 (amended): an empty keyword list is a no-op; a list containing at
least one keyword that is nonempty after stripping produces exactly one
artifact whose first row is the header row (blank keywords are merely
skipped). -/
theorem run_produces_single_artifact (denv : Nat → DiscoveryEnv)
    (senv : Nat → ScrapeEnv) (outcomes : Nat → CloseAttempt) (fuel : Nat)
    (keywords : List String) :
    (keywords = [] → process_keywords denv senv outcomes fuel keywords = none)
    ∧ ((∃ kw, kw ∈ keywords ∧ pyStrip kw ≠ "") →
        ∃ rm, process_keywords denv senv outcomes fuel keywords = some rm
          ∧ rm.rows.head? = some headerRow) := by
  constructor
  · intro h
    subst h
    rfl
  · rintro ⟨kw, hmem, hne⟩
    have hkey := trim_mem_keys_fetchAllGo denv keywords kw hmem hne 0 []
    have hne2 : (fetch_all_manufacturer_urls denv keywords).isEmpty = false := by
      cases hd : fetch_all_manufacturer_urls denv keywords with
      | nil =>
        rw [fetch_all_manufacturer_urls] at hd
        rw [hd] at hkey
        simp at hkey
      | cons p ps => rfl
    have hke : keywords.isEmpty = false := by
      cases keywords with
      | nil => cases hmem
      | cons a as => rfl
    refine ⟨process_and_scrape_manufacturer_data (fetch_all_manufacturer_urls denv keywords)
      senv outcomes fuel, ?_, rfl⟩
    simp [process_keywords, hke, hne2]

/-- Witness for C8's amended theorem: a single nonblank keyword whose
discovery times out still yields the artifact with its header row. -/
theorem run_produces_single_artifact_witness :
    ∃ rm, process_keywords denvTriv senvTriv outcomesTriv 1 ["a"] = some rm
      ∧ rm.rows.head? = some headerRow :=
  (run_produces_single_artifact denvTriv senvTriv outcomesTriv 1 ["a"]).2
    ⟨"a", by decide, by decide⟩

/-- Claim C9 (counterexample): when page 1's screenshot capture fails, the
counter is not incremented, so page 2 is captured under page number 1 — two
pages are visited (two capture attempts) but only one screenshot exists and
it does not carry its page's ordinal. -/
theorem screenshot_counter_stalls_on_failed_capture :
    (scrapeLoop "kw" [pgShotFail, pgShotOk] 1).attempts = 2
    ∧ (scrapeLoop "kw" [pgShotFail, pgShotOk] 1).captures.map Capture.num = [1]
    ∧ (scrapeLoop "kw" [pgShotFail, pgShotOk] 1).captures.map Capture.path
        = ["kw m1 page 1.png"] := by
  decide

/-- Claim C9 (amended): exactly one screenshot capture is attempted per page
visited; the page counter is incremented only on a successful capture, so the
captured screenshots carry consecutive numbers starting from the initial
counter — the k-th successful capture gets number k, regardless of how pages
and failures interleave. -/
theorem screenshot_numbering (keyword : String) (pages : List Page) :
    ∀ n, (scrapeLoop keyword pages n).captures.map Capture.num
        = natSeq n (scrapeLoop keyword pages n).captures.length
      ∧ (scrapeLoop keyword pages n).captures.length ≤ (scrapeLoop keyword pages n).attempts := by
  induction pages with
  | nil => intro n; simp [scrapeLoop, natSeq]
  | cons pg rest ih =>
    intro n
    cases hf : pg.extractFault with
    | true => simp [scrapeLoop, hf, natSeq]
    | false =>
      cases hc : continuesToNext (processGroups keyword pg.groups).2 pg.next with
      | false =>
        cases hs : pg.screenshotOk with
        | false => simp [scrapeLoop, hf, hc, hs, natSeq]
        | true => simp [scrapeLoop, hf, hc, hs, natSeq]
      | true =>
        cases hs : pg.screenshotOk with
        | false =>
          obtain ⟨h1, h2⟩ := ih n
          refine ⟨?_, ?_⟩
          · simpa [scrapeLoop, hf, hc, hs] using h1
          · have h3 : (scrapeLoop keyword (pg :: rest) n).captures.length
                = (scrapeLoop keyword rest n).captures.length := by
              simp [scrapeLoop, hf, hc, hs]
            have h4 : (scrapeLoop keyword (pg :: rest) n).attempts
                = 1 + (scrapeLoop keyword rest n).attempts := by
              simp [scrapeLoop, hf, hc, hs]
            omega
        | true =>
          obtain ⟨h1, h2⟩ := ih (n + 1)
          refine ⟨?_, ?_⟩
          · have h3 : (scrapeLoop keyword (pg :: rest) n).captures
                = ⟨shotName keyword (mfrFromQuery pg.query) n, n⟩
                    :: (scrapeLoop keyword rest (n + 1)).captures := by
              simp [scrapeLoop, hf, hc, hs]
            rw [h3]
            simp [h1, natSeq_cons]
          · have h3 : (scrapeLoop keyword (pg :: rest) n).captures.length
                = (scrapeLoop keyword rest (n + 1)).captures.length + 1 := by
              simp [scrapeLoop, hf, hc, hs]
            have h4 : (scrapeLoop keyword (pg :: rest) n).attempts
                = 1 + (scrapeLoop keyword rest (n + 1)).attempts := by
              simp [scrapeLoop, hf, hc, hs]
            omega

/-- Claim C10: the discovery dict has distinct keys, no entry for the empty
string, and answers every nonempty key with the discovery result of the last
input keyword stripping to it — a later duplicate replaces the earlier
entry's value, and each distinct stripped keyword is fanned out once. -/
theorem fetch_all_one_entry_per_trimmed_keyword (denv : Nat → DiscoveryEnv)
    (keywords : List String) :
    ((fetch_all_manufacturer_urls denv keywords).map Prod.fst).Nodup
    ∧ lookupA (fetch_all_manufacturer_urls denv keywords) "" = none
    ∧ ∀ k, k ≠ "" →
        lookupA (fetch_all_manufacturer_urls denv keywords) k
          = (lastMatchIdx keywords k).map fun j => get_manufacturer_urls (denv j) k := by
  refine ⟨?_, ?_, ?_⟩
  · exact nodup_keys_fetchAllGo denv keywords 0 [] (by simp)
  · exact lookupA_fetchAllGo_empty denv keywords 0 [] rfl
  · intro k hk
    rw [fetch_all_manufacturer_urls, lookupA_fetchAllGo denv k hk keywords 0 []]
    cases hl : lastMatchIdxGo k 0 keywords <;> simp [lastMatchIdx, hl, lookupA]

/-- Witness for C10: three keywords, two stripping to "x"; the entry for "x"
is the discovery result of the last occurrence (index 2). -/
theorem fetch_all_one_entry_witness :
    lookupA (fetch_all_manufacturer_urls denvSeq ["x ", "", " x"]) "x"
      = (lastMatchIdx ["x ", "", " x"] "x").map fun j =>
          get_manufacturer_urls (denvSeq j) "x" :=
  (fetch_all_one_entry_per_trimmed_keyword denvSeq ["x ", "", " x"]).2.2 "x" (by decide)

end Apec
